import Mathlib

/-!
Shallow embedding of the ProjectFlow tracker application
(`tracker/models.py`, `tracker/utils.py`, `tracker/form.py`,
`tracker/views.py`) and proofs about its access-control,
validation and relationship-resolution logic.

Machine conventions:
* database primary keys and parsed identifiers are `Int`
  (Python `int` is unbounded);
* dates are `Int` day numbers; `today` is passed explicitly where the
  source calls `timezone.now().date()`;
* a request's authenticated user is `Option Int`
  (`none` models `AnonymousUser`, whose `id` is `None`);
* every view function returns its rendered `Response` together with the
  database after the request, so "the mutation was not performed" is the
  statement that the returned database equals the input database.
-/

namespace Tracker

/-- Python `str.strip()` on a list of characters: drop whitespace from
both ends.  Used because `tracker/utils.py` strips each comma token. -/
def pyStrip (l : List Char) : List Char :=
  ((l.dropWhile Char.isWhitespace).reverse.dropWhile Char.isWhitespace).reverse

/-- Python `str.split(",")`: split at every comma, keeping empty pieces.
`acc` holds the current piece reversed. -/
def splitCommaAux (l : List Char) (acc : List Char) : List (List Char) :=
  match l with
  | [] => [acc.reverse]
  | c :: rest =>
      if c = ',' then acc.reverse :: splitCommaAux rest []
      else splitCommaAux rest (c :: acc)

/-- `[id.strip() for id in data_ids.split(",") if id.strip()]` from
`clean_ids_field` (`tracker/utils.py` line 19): split on commas, strip
each token, drop tokens that became empty. -/
def split_tokens (s : String) : List (List Char) :=
  ((splitCommaAux s.data []).map pyStrip).filter (fun t => t ≠ [])

/-- Decimal digits of Python `int(...)` after the first digit: a digit
string in which single underscores may appear between digits. -/
def pyDigitsAux : List Char → Nat → Option Nat
  | [], acc => some acc
  | '_' :: rest, acc =>
      match rest with
      | [] => none
      | c :: rest2 =>
          if c.isDigit then pyDigitsAux rest2 (acc * 10 + (c.toNat - 48))
          else none
  | c :: rest, acc =>
      if c.isDigit then pyDigitsAux rest (acc * 10 + (c.toNat - 48))
      else none

/-- Parse a non-empty digit run (Python decimal integer literal body). -/
def pyNatOfChars (l : List Char) : Option Nat :=
  match l with
  | [] => none
  | c :: rest =>
      if c.isDigit then pyDigitsAux rest (c.toNat - 48) else none

/-- Python `int(token)` on an already-stripped token: optional sign then
digits (with Python's underscore grouping); anything else raises
`ValueError`, modelled as `none`. -/
def pyInt (l : List Char) : Option Int :=
  match l with
  | '-' :: rest => (pyNatOfChars rest).map (fun n => -(n : Int))
  | '+' :: rest => (pyNatOfChars rest).map (fun n => (n : Int))
  | _ => (pyNatOfChars l).map (fun n => (n : Int))

/-- `[int(id) for id in ids]` (`tracker/utils.py` line 26): parse every
token; one `ValueError` fails the whole comprehension. -/
def parseAll : List (List Char) → Option (List Int)
  | [] => some []
  | t :: ts =>
      match pyInt t, parseAll ts with
      | some i, some is => some (i :: is)
      | _, _ => none

/-- The list of integers parsed from a comma-separated input, `none` if
some kept token is not an integer. -/
def parse_ids (s : String) : Option (List Int) :=
  parseAll (split_tokens s)

/-- Python `field_name.replace('_', ' ')`. -/
def py_replace_underscores (s : String) : String :=
  String.mk (s.data.map (fun c => if c = '_' then ' ' else c))

/-- Python `str.capitalize()`: first character upper-cased, the rest
lower-cased. -/
def py_capitalize (s : String) : String :=
  match s.data with
  | [] => ""
  | c :: rest => String.mk (c.toUpper :: rest.map Char.toLower)

/-- The "cannot be empty" message of `clean_ids_field`
(`tracker/utils.py` lines 15-18 and 21-24). -/
def empty_ids_message (field_name : String) : String :=
  py_capitalize (py_replace_underscores field_name)
    ++ " cannot be empty. Please enter valid IDs."

/-- The "IDs are invalid" message of `clean_ids_field`
(`tracker/utils.py` lines 31-34). -/
def invalid_ids_message (field_name : String) : String :=
  "One or more " ++ py_replace_underscores field_name
    ++ " IDs are invalid. Please check the IDs."

/-- `clean_ids_field(self, field_name, model_class)` from
`tracker/utils.py` lines 4-35.  `existing` is the primary-key column of
the target table (`model_class.objects`); `data_ids` is the raw field
value.  Mirrors the source step by step: falsy-input check, token split,
integer parse, `filter(pk__in=ids)` (each stored row once, in table
order), then the `len(objects) != len(ids)` count comparison. -/
def clean_ids_field (existing : List Int) (field_name : String)
    (data_ids : String) : Except String (List Int) :=
  if data_ids = "" then .error (empty_ids_message field_name)
  else
    let toks := split_tokens data_ids
    if toks = [] then .error (empty_ids_message field_name)
    else
      match parseAll toks with
      | none => .error "All IDs must be valid integers."
      | some ids =>
          let objects := existing.filter (fun e => ids.contains e)
          if objects.length ≠ ids.length then
            .error (invalid_ids_message field_name)
          else .ok objects

/-! ## Data model (`tracker/models.py`) -/

/-- `TaskType` (`models.py` lines 16-20): a unique name. -/
structure TaskTypeR where
  id : Int
  name : String
deriving Repr, DecidableEq

/-- `Team` (`models.py` lines 50-63): unique name, description, and the
many-to-many `members` relation stored as the list of employee ids. -/
structure Team where
  id : Int
  name : String
  description : String
  members : List Int
deriving Repr, DecidableEq

/-- `Project` (`models.py` lines 66-94): unique name, deadline (a day
number), completion flag, owning team foreign key. -/
structure Project where
  id : Int
  name : String
  description : String
  deadline : Int
  is_completed : Bool
  team_id : Int
deriving Repr, DecidableEq

/-- `Task` (`models.py` lines 97-143): unique name, deadline, completion
flag, priority string, task-type and project foreign keys, and the
many-to-many `assignees` relation. -/
structure Task where
  id : Int
  name : String
  description : String
  deadline : Int
  is_completed : Bool
  priority : String
  task_type_id : Int
  project_id : Int
  assignees : List Int
deriving Repr, DecidableEq

/-- `Comment` (`models.py` lines 146-160): author, parent task, text. -/
structure Comment where
  id : Int
  employee_id : Int
  task_id : Int
  content : String
deriving Repr, DecidableEq

/-- The relational store: one list per table.  `employees` is the
primary-key column of the Employee table (only ids matter to the
modelled logic). -/
structure Database where
  employees : List Int
  task_types : List TaskTypeR
  teams : List Team
  projects : List Project
  tasks : List Task
  comments : List Comment
deriving Repr, DecidableEq

/-- `Team.objects.get(pk=pk)` / `get_object_or_404(Team, pk)` lookup. -/
def findTeam (db : Database) (pk : Int) : Option Team :=
  db.teams.find? (fun t => t.id == pk)

/-- `Project.objects.get(pk=pk)` lookup. -/
def findProject (db : Database) (pk : Int) : Option Project :=
  db.projects.find? (fun p => p.id == pk)

/-- `Task.objects.get(pk=pk)` lookup. -/
def findTask (db : Database) (pk : Int) : Option Task :=
  db.tasks.find? (fun t => t.id == pk)

/-- `Comment.objects.get(pk=pk)` lookup. -/
def findComment (db : Database) (pk : Int) : Option Comment :=
  db.comments.find? (fun c => c.id == pk)

/-- `TaskType.objects.get(pk=pk)` lookup. -/
def findTaskType (db : Database) (pk : Int) : Option TaskTypeR :=
  db.task_types.find? (fun t => t.id == pk)

/-- Autoincrement primary key for a new row: one more than the largest
id in the table. -/
def freshId (ids : List Int) : Int :=
  (ids.foldl max 0) + 1

/-- Deleting a `Task` cascades to its `Comment`s
(`Comment.task` has `on_delete=CASCADE`). -/
def deleteTaskCascade (db : Database) (taskId : Int) : Database :=
  { db with
      tasks := db.tasks.filter (fun t => ¬ t.id == taskId),
      comments := db.comments.filter (fun c => ¬ c.task_id == taskId) }

/-- Deleting a `Project` cascades to its `Task`s and their `Comment`s. -/
def deleteProjectCascade (db : Database) (projectId : Int) : Database :=
  let deadTasks := (db.tasks.filter (fun t => t.project_id == projectId)).map (fun t => t.id)
  { db with
      projects := db.projects.filter (fun p => ¬ p.id == projectId),
      tasks := db.tasks.filter (fun t => ¬ t.project_id == projectId),
      comments := db.comments.filter (fun c => ¬ deadTasks.contains c.task_id) }

/-- Deleting a `Team` cascades to its `Project`s, their `Task`s and
those tasks' `Comment`s. -/
def deleteTeamCascade (db : Database) (teamId : Int) : Database :=
  let deadProjects := (db.projects.filter (fun p => p.team_id == teamId)).map (fun p => p.id)
  let deadTasks := (db.tasks.filter (fun t => deadProjects.contains t.project_id)).map (fun t => t.id)
  { db with
      teams := db.teams.filter (fun t => ¬ t.id == teamId),
      projects := db.projects.filter (fun p => ¬ p.team_id == teamId),
      tasks := db.tasks.filter (fun t => ¬ deadProjects.contains t.project_id),
      comments := db.comments.filter (fun c => ¬ deadTasks.contains c.task_id) }

/-! ## Model validation (`tracker/models.py`) -/

/-- `PRIORITY_CHOICES` (`models.py` lines 8-13): the stored values. -/
def PRIORITY_CHOICES : List String := ["urgent", "high", "medium", "low"]

/-- The declared default of `Task.priority` (`models.py` line 106). -/
def TASK_PRIORITY_DEFAULT : String := "U"

/-- `Project.clean` (`models.py` lines 87-90): the deadline must be
strictly after today, else a validation error on the `deadline` key. -/
def project_clean_errors (p : Project) (today : Int) : List (String × String) :=
  if p.deadline ≤ today then [("deadline", "The deadline cannot be in the past.")]
  else []

/-- `Task.clean` (`models.py` lines 136-139): same deadline rule. -/
def task_clean_errors (t : Task) (today : Int) : List (String × String) :=
  if t.deadline ≤ today then [("deadline", "The deadline cannot be in the past.")]
  else []

/-- Field-level validation that `full_clean` runs on a `Project`:
`name` is a required `CharField` (blank not allowed). -/
def project_clean_fields_errors (p : Project) : List (String × String) :=
  if p.name = "" then [("name", "This field cannot be blank.")] else []

/-- Field-level validation that `full_clean` runs on a `Task`:
`name` required, and `priority` must be one of the declared choices. -/
def task_clean_fields_errors (t : Task) : List (String × String) :=
  (if t.name = "" then [("name", "This field cannot be blank.")] else [])
    ++ (if PRIORITY_CHOICES.contains t.priority then []
        else [("priority", "Value is not a valid choice.")])

/-- `validate_unique` for `Project.name`: some other stored project
(different pk) already has this name. -/
def project_unique_errors (db : Database) (p : Project) : List (String × String) :=
  if db.projects.any (fun q => q.name == p.name && ¬ q.id == p.id) then
    [("name", "Project with this Name already exists.")]
  else []

/-- `validate_unique` for `Task.name`. -/
def task_unique_errors (db : Database) (t : Task) : List (String × String) :=
  if db.tasks.any (fun q => q.name == t.name && ¬ q.id == t.id) then
    [("name", "Task with this Name already exists.")]
  else []

/-- `Model.full_clean` for `Project`: field validation, then `clean`,
then uniqueness, all error lists accumulated. -/
def project_full_clean (db : Database) (p : Project) (today : Int) :
    List (String × String) :=
  project_clean_fields_errors p ++ project_clean_errors p today
    ++ project_unique_errors db p

/-- `Model.full_clean` for `Task`. -/
def task_full_clean (db : Database) (t : Task) (today : Int) :
    List (String × String) :=
  task_clean_fields_errors t ++ task_clean_errors t today
    ++ task_unique_errors db t

/-- Insert-or-replace by primary key (what `Model.save` does once
validation has passed). -/
def upsertProject (l : List Project) (p : Project) : List Project :=
  if l.any (fun q => q.id == p.id) then
    l.map (fun q => if q.id == p.id then p else q)
  else l ++ [p]

/-- Insert-or-replace by primary key for tasks. -/
def upsertTask (l : List Task) (t : Task) : List Task :=
  if l.any (fun q => q.id == t.id) then
    l.map (fun q => if q.id == t.id then t else q)
  else l ++ [t]

/-- `Project.save` (`models.py` lines 92-94): run `full_clean`; on any
validation error the save raises and nothing is persisted, otherwise
the row is written. -/
def project_save (db : Database) (p : Project) (today : Int) :
    Except (List (String × String)) Database :=
  if project_full_clean db p today = [] then
    .ok { db with projects := upsertProject db.projects p }
  else .error (project_full_clean db p today)

/-- `Task.save` (`models.py` lines 141-143): `full_clean` then write. -/
def task_save (db : Database) (t : Task) (today : Int) :
    Except (List (String × String)) Database :=
  if task_full_clean db t today = [] then
    .ok { db with tasks := upsertTask db.tasks t }
  else .error (task_full_clean db t today)

/-! ## Views (`tracker/views.py`)

Class-based views in the source override `dispatch`, so their
`get_object_or_404` lookup and membership check run BEFORE
`LoginRequiredMixin` (which is only reached through `super().dispatch`
at the end of the override).  The embeddings below keep that order. -/

/-- The outcome of one request. -/
inductive Response where
  /-- `LoginRequiredMixin` / `@login_required` turned the request away. -/
  | login_redirect : Response
  /-- `get_object_or_404` raised `Http404`. -/
  | not_found : Response
  /-- `render(request, "permission.html")`: the generic forbidden page. -/
  | forbidden : Response
  /-- An uncaught `Model.DoesNotExist` from a plain `.get(pk=pk)`. -/
  | server_error : Response
  /-- The team detail page, showing this team. -/
  | team_page : Team → Response
  /-- The project detail page, showing this project. -/
  | project_page : Project → Response
  /-- The task detail page, showing this task. -/
  | task_page : Task → Response
  /-- A form page re-rendered after failed validation. -/
  | form_page : Response
  /-- A page re-rendered with an explicit error message. -/
  | form_with_error : String → Response
  /-- A redirect to the named route after success. -/
  | redirect : String → Response
deriving Repr, DecidableEq

/-- The request method, where a view treats GET and POST differently. -/
inductive HttpMethod where
  | get : HttpMethod
  | post : HttpMethod
deriving Repr, DecidableEq

/-- `team.members.filter(id=request.user.id).exists()`: the Access
Guard membership test.  An anonymous user has `id = None`, which never
matches a stored primary key. -/
def members_guard (members : List Int) (user : Option Int) : Bool :=
  match user with
  | none => false
  | some uid => members.contains uid

/-- `team_details_page_view` (`views.py` lines 278-287):
`@login_required`, then `Team.objects.get(pk=pk)` and render the team
page.  No membership check. -/
def team_details_page_view (db : Database) (user : Option Int) (pk : Int) :
    Response :=
  match user with
  | none => .login_redirect
  | some _ =>
      match findTeam db pk with
      | none => .server_error
      | some t => .team_page t

/-- `project_details_page_view` (`views.py` lines 378-389):
`@login_required`, then `Project.objects.get(pk=pk)` and render.
No membership check. -/
def project_details_page_view (db : Database) (user : Option Int) (pk : Int) :
    Response :=
  match user with
  | none => .login_redirect
  | some _ =>
      match findProject db pk with
      | none => .server_error
      | some p => .project_page p

/-- `task_details_page_view` (`views.py` lines 253-275):
`@login_required`, `Task.objects.get(pk=pk)`; a POST with a valid
`CreateCommentForm` (non-blank content) stores a new comment by the
requesting user and redirects, otherwise the task page is rendered.
No membership check. -/
def task_details_page_view (db : Database) (user : Option Int) (pk : Int)
    (method : HttpMethod) (content : String) : Response × Database :=
  match user with
  | none => (.login_redirect, db)
  | some uid =>
      match findTask db pk with
      | none => (.server_error, db)
      | some t =>
          match method with
          | .get => (.task_page t, db)
          | .post =>
              if String.mk (pyStrip content.data) = "" then (.task_page t, db)
              else
                let c : Comment :=
                  { id := freshId (db.comments.map (fun c => c.id)),
                    employee_id := uid, task_id := pk, content := content }
                (.redirect "tracker:task-details",
                 { db with comments := db.comments ++ [c] })

/-- `CreateTeamForm` validity (`form.py` lines 64-91): the model `name`
field must be non-blank and unique, and `clean_member_ids` must
resolve.  Returns the resolved member list on success. -/
def create_team_form_clean (db : Database) (name member_ids : String) :
    Except Unit (List Int) :=
  if name = "" then .error ()
  else if db.teams.any (fun t => t.name == name) then .error ()
  else
    match clean_ids_field db.employees "member_ids" member_ids with
    | .error _ => .error ()
    | .ok ms => .ok ms

/-- `create_team_form_view` (`views.py` lines 199-209) with
`CreateTeamForm.save` (`form.py` lines 85-91): on valid input the team
row is inserted and `team.members.set(members)` stores exactly the
resolved employees; there is no requirement that the requester's id be
among them. -/
def create_team_form_view (db : Database) (user : Option Int)
    (name description member_ids : String) : Response × Database :=
  match user with
  | none => (.login_redirect, db)
  | some _ =>
      match create_team_form_clean db name member_ids with
      | .error _ => (.form_page, db)
      | .ok ms =>
          let t : Team :=
            { id := freshId (db.teams.map (fun t => t.id)),
              name := name, description := description, members := ms }
          (.redirect "tracker:teams", { db with teams := db.teams ++ [t] })

/-- `create_project_form_view` (`views.py` lines 212-222) with
`CreateProjectForm` (`form.py` lines 94-112): `teams_choice` is limited
to teams the requester belongs to; the model validation (blank name,
uniqueness, future deadline) runs through the form; on success the
project is stored with the chosen team. -/
def create_project_form_view (db : Database) (user : Option Int)
    (name description : String) (deadline : Int) (is_completed : Bool)
    (teams_choice : Int) (today : Int) : Response × Database :=
  match user with
  | none => (.login_redirect, db)
  | some uid =>
      let p : Project :=
        { id := freshId (db.projects.map (fun p => p.id)),
          name := name, description := description, deadline := deadline,
          is_completed := is_completed, team_id := teams_choice }
      match findTeam db teams_choice with
      | none => (.form_page, db)
      | some team =>
          if ¬ team.members.contains uid then (.form_page, db)
          else
            match project_save db p today with
            | .error _ => (.form_page, db)
            | .ok db2 => (.redirect "tracker:projects", db2)

/-- `create_task_form_view` (`views.py` lines 240-250) with
`CreateTasksForm` (`form.py` lines 115-156): `priority` must be a
declared choice, `task_type` an existing type, `project_choice` a
project of one of the requester's teams, and `assignees_ids` must
resolve through `clean_ids_field`; on success the task is stored and
`task.assignees.set(assignees)` is applied. -/
def create_task_form_view (db : Database) (user : Option Int)
    (name description : String) (deadline : Int) (is_completed : Bool)
    (priority : String) (task_type_id : Int) (assignees_ids : String)
    (project_choice : Int) (today : Int) : Response × Database :=
  match user with
  | none => (.login_redirect, db)
  | some uid =>
      match clean_ids_field db.employees "assignees_ids" assignees_ids with
      | .error _ => (.form_page, db)
      | .ok assignees =>
          match findProject db project_choice, findTaskType db task_type_id with
          | some project, some _ =>
              match findTeam db project.team_id with
              | none => (.form_page, db)
              | some team =>
                  if ¬ team.members.contains uid then (.form_page, db)
                  else
                    let t : Task :=
                      { id := freshId (db.tasks.map (fun t => t.id)),
                        name := name, description := description,
                        deadline := deadline, is_completed := is_completed,
                        priority := priority, task_type_id := task_type_id,
                        project_id := project_choice, assignees := assignees }
                    match task_save db t today with
                    | .error _ => (.form_page, db)
                    | .ok db2 => (.redirect "tracker:tasks", db2)
          | _, _ => (.form_page, db)

/-- `CreateTypeView` (`views.py` lines 225-237): `LoginRequiredMixin`
then a model form over `TaskType` (blank and unique name checks). -/
def CreateTypeView_post (db : Database) (user : Option Int) (name : String) :
    Response × Database :=
  match user with
  | none => (.login_redirect, db)
  | some _ =>
      if name = "" then (.form_page, db)
      else if db.task_types.any (fun t => t.name == name) then (.form_page, db)
      else
        let ty : TaskTypeR :=
          { id := freshId (db.task_types.map (fun t => t.id)), name := name }
        (.redirect "tracker:tasks", { db with task_types := db.task_types ++ [ty] })

/-- `AddNewMemberToTeam` (`views.py` lines 290-319).  The `dispatch`
override runs first: `get_object_or_404(Team, pk)` then the membership
guard; only then `super().dispatch` reaches `LoginRequiredMixin` and
the form.  `AddMemberForm.clean_employee_id` (`form.py` lines 177-190)
rejects the requester's own id, a falsy (zero) id, an id already in the
team and an unknown id; `form_valid` adds the member. -/
def AddNewMemberToTeam_view (db : Database) (user : Option Int) (pk : Int)
    (employee_id : Int) : Response × Database :=
  match findTeam db pk with
  | none => (.not_found, db)
  | some team =>
      if ¬ members_guard team.members user then (.forbidden, db)
      else
        match user with
        | none => (.login_redirect, db)
        | some uid =>
            if employee_id == uid then (.form_page, db)
            else if employee_id == 0 then (.form_page, db)
            else if team.members.contains employee_id then (.form_page, db)
            else if ¬ db.employees.contains employee_id then (.form_page, db)
            else
              (.redirect "tracker:team-details",
               { db with teams := db.teams.map (fun t =>
                   if t.id == pk then { t with members := t.members ++ [employee_id] }
                   else t) })

/-- `DeleteMemberFromTeam` (`views.py` lines 322-356).  `dispatch`:
team 404 then membership guard, then `LoginRequiredMixin`; `post`:
404 on the employee, an explicit error page when the requester targets
themself (database untouched), otherwise `team.members.remove(...)`
and a redirect. -/
def DeleteMemberFromTeam_post (db : Database) (user : Option Int)
    (team_pk member_pk : Int) : Response × Database :=
  match findTeam db team_pk with
  | none => (.not_found, db)
  | some team =>
      if ¬ members_guard team.members user then (.forbidden, db)
      else
        match user with
        | none => (.login_redirect, db)
        | some uid =>
            if ¬ db.employees.contains member_pk then (.not_found, db)
            else if member_pk == uid then
              (.form_with_error "You cannot delete yourself from the team.", db)
            else
              (.redirect "tracker:team-details",
               { db with teams := db.teams.map (fun t =>
                   if t.id == team_pk then
                     { t with members := t.members.filter (fun m => ¬ m == member_pk) }
                   else t) })

/-- `DeleteTeamView` (`views.py` lines 441-457): `dispatch` does the
team 404 and the membership guard, then `LoginRequiredMixin`, then the
deletion with its foreign-key cascade. -/
def DeleteTeamView_post (db : Database) (user : Option Int) (pk : Int) :
    Response × Database :=
  match findTeam db pk with
  | none => (.not_found, db)
  | some team =>
      if ¬ members_guard team.members user then (.forbidden, db)
      else
        match user with
        | none => (.login_redirect, db)
        | some _ => (.redirect "tracker:teams", deleteTeamCascade db pk)

/-- `DeleteProjectView` (`views.py` lines 359-375): the one mutating
view WITHOUT `LoginRequiredMixin`.  `dispatch` does the project 404 and
the membership guard on `project.team.members`; passing the guard goes
straight to the deletion. -/
def DeleteProjectView_post (db : Database) (user : Option Int) (pk : Int) :
    Response × Database :=
  match findProject db pk with
  | none => (.not_found, db)
  | some project =>
      match findTeam db project.team_id with
      | none => (.server_error, db)
      | some team =>
          if ¬ members_guard team.members user then (.forbidden, db)
          else (.redirect "tracker:projects", deleteProjectCascade db pk)

/-- `DeleteTaskView` (`views.py` lines 392-408): `dispatch` does the
task 404 and the guard on `task.project.team.members`, then
`LoginRequiredMixin`, then the deletion. -/
def DeleteTaskView_post (db : Database) (user : Option Int) (pk : Int) :
    Response × Database :=
  match findTask db pk with
  | none => (.not_found, db)
  | some task =>
      match findProject db task.project_id with
      | none => (.server_error, db)
      | some project =>
          match findTeam db project.team_id with
          | none => (.server_error, db)
          | some team =>
              if ¬ members_guard team.members user then (.forbidden, db)
              else
                match user with
                | none => (.login_redirect, db)
                | some _ => (.redirect "tracker:tasks", deleteTaskCascade db pk)

/-- `DeleteCommentView` (`views.py` lines 518-528): only
`LoginRequiredMixin` and the comment 404 — NO membership check of any
kind — then the deletion. -/
def DeleteCommentView_post (db : Database) (user : Option Int) (pk : Int) :
    Response × Database :=
  match user with
  | none => (.login_redirect, db)
  | some _ =>
      match findComment db pk with
      | none => (.not_found, db)
      | some _ =>
          (.redirect "tracker:task-details",
           { db with comments := db.comments.filter (fun c => ¬ c.id == pk) })

/-- The form-processing stage of `UpdateTeamView`
(`UpdateTeamForm`, `form.py` lines 193-214, plus `form_valid`,
`views.py` lines 473-480): validate the name (non-blank, unique apart
from this team) and resolve `member_ids`; on success
`team.members.set(workers)` replaces the member set wholesale and the
name/description are saved. -/
def UpdateTeamView_form_branch (db : Database) (pk : Int)
    (name description member_ids : String) : Response × Database :=
  if name = "" then (.form_page, db)
  else if db.teams.any (fun t => t.name == name && ¬ t.id == pk) then
    (.form_page, db)
  else
    match clean_ids_field db.employees "member_ids" member_ids with
    | .error _ => (.form_page, db)
    | .ok workers =>
        (.redirect "tracker:team-details",
         { db with teams := db.teams.map (fun t =>
             if t.id == pk then
               { t with name := name, description := description,
                        members := workers }
             else t) })

/-- `UpdateTeamView` (`views.py` lines 460-483): `dispatch` does the
team 404 and the membership guard, then `LoginRequiredMixin`, then the
form stage. -/
def UpdateTeamView_post (db : Database) (user : Option Int) (pk : Int)
    (name description member_ids : String) : Response × Database :=
  match findTeam db pk with
  | none => (.not_found, db)
  | some team =>
      if ¬ members_guard team.members user then (.forbidden, db)
      else
        match user with
        | none => (.login_redirect, db)
        | some _ => UpdateTeamView_form_branch db pk name description member_ids

/-- The form-processing stage of `UpdateProjectView`
(`UpdateProjectForm`, `form.py` lines 257-267, plus `form_valid`,
`views.py` lines 429-435): `teams_choice` is limited to the requester's
teams; model validation runs through the form; on success the project
row is rewritten with the new fields and owning team. -/
def UpdateProjectView_form_branch (db : Database) (uid pk : Int)
    (name description : String) (deadline : Int) (is_completed : Bool)
    (teams_choice : Int) (today : Int) : Response × Database :=
  match findTeam db teams_choice with
  | none => (.form_page, db)
  | some team =>
      if ¬ team.members.contains uid then (.form_page, db)
      else
        let p : Project :=
          { id := pk, name := name, description := description,
            deadline := deadline, is_completed := is_completed,
            team_id := teams_choice }
        match project_save db p today with
        | .error _ => (.form_page, db)
        | .ok db2 => (.redirect "tracker:project-details", db2)

/-- `UpdateProjectView` (`views.py` lines 411-438): `dispatch` does the
project 404 and the guard on `project.team.members`, then
`LoginRequiredMixin`, then the form stage. -/
def UpdateProjectView_post (db : Database) (user : Option Int) (pk : Int)
    (name description : String) (deadline : Int) (is_completed : Bool)
    (teams_choice : Int) (today : Int) : Response × Database :=
  match findProject db pk with
  | none => (.not_found, db)
  | some project =>
      match findTeam db project.team_id with
      | none => (.server_error, db)
      | some team =>
          if ¬ members_guard team.members user then (.forbidden, db)
          else
            match user with
            | none => (.login_redirect, db)
            | some uid =>
                UpdateProjectView_form_branch db uid pk name description
                  deadline is_completed teams_choice today

/-- The form-processing stage of `UpdateTaskView`
(`UpdateTaskForm`, `form.py` lines 217-254, plus `form_valid`,
`views.py` lines 504-512): `assignees_ids` resolves through
`clean_ids_field`, `project_choice` is limited to projects of the
requester's teams, `task_type` must exist, and the model validation
(blank name, uniqueness, choices, future deadline) runs; on success the
task row is rewritten and `task.assignees.set(workers)` applied. -/
def UpdateTaskView_form_branch (db : Database) (uid pk : Int)
    (name description : String) (deadline : Int) (is_completed : Bool)
    (priority : String) (task_type_id : Int) (assignees_ids : String)
    (project_choice : Int) (today : Int) : Response × Database :=
  match clean_ids_field db.employees "assignees_ids" assignees_ids with
  | .error _ => (.form_page, db)
  | .ok workers =>
      match findProject db project_choice, findTaskType db task_type_id with
      | some project, some _ =>
          match findTeam db project.team_id with
          | none => (.form_page, db)
          | some team =>
              if ¬ team.members.contains uid then (.form_page, db)
              else
                let t : Task :=
                  { id := pk, name := name, description := description,
                    deadline := deadline, is_completed := is_completed,
                    priority := priority, task_type_id := task_type_id,
                    project_id := project_choice, assignees := workers }
                match task_save db t today with
                | .error _ => (.form_page, db)
                | .ok db2 => (.redirect "tracker:task-details", db2)
      | _, _ => (.form_page, db)

/-- `UpdateTaskView` (`views.py` lines 486-515): `dispatch` does the
task 404 and the guard on `task.project.team.members`, then
`LoginRequiredMixin`, then the form stage. -/
def UpdateTaskView_post (db : Database) (user : Option Int) (pk : Int)
    (name description : String) (deadline : Int) (is_completed : Bool)
    (priority : String) (task_type_id : Int) (assignees_ids : String)
    (project_choice : Int) (today : Int) : Response × Database :=
  match findTask db pk with
  | none => (.not_found, db)
  | some task =>
      match findProject db task.project_id with
      | none => (.server_error, db)
      | some project =>
          match findTeam db project.team_id with
          | none => (.server_error, db)
          | some team =>
              if ¬ members_guard team.members user then (.forbidden, db)
              else
                match user with
                | none => (.login_redirect, db)
                | some uid =>
                    UpdateTaskView_form_branch db uid pk name description
                      deadline is_completed priority task_type_id
                      assignees_ids project_choice today

/-! ## A concrete store used by counterexamples and witnesses -/

/-- Team 1 "alpha", whose only member is employee 1. -/
def teamA : Team := { id := 1, name := "alpha", description := "", members := [1] }

/-- Project 1, owned by team 1. -/
def projectA : Project :=
  { id := 1, name := "proj", description := "", deadline := 100,
    is_completed := false, team_id := 1 }

/-- Task 1, in project 1. -/
def taskA : Task :=
  { id := 1, name := "task", description := "", deadline := 100,
    is_completed := false, priority := "high", task_type_id := 1,
    project_id := 1, assignees := [1] }

/-- Comment 1 by employee 1 on task 1. -/
def commentA : Comment := { id := 1, employee_id := 1, task_id := 1, content := "hi" }

/-- Team 2 "beta", with members 1 and 2.  It owns nothing. -/
def teamB : Team := { id := 2, name := "beta", description := "", members := [1, 2] }

/-- Two employees (1 and 2); employee 2 is not a member of team 1,
which owns project 1, task 1 and comment 1. -/
def sampleDb : Database :=
  { employees := [1, 2], task_types := [{ id := 1, name := "bug" }],
    teams := [teamA, teamB], projects := [projectA], tasks := [taskA],
    comments := [commentA] }

/-- A task carrying the model's declared default priority `"U"`
(`models.py` line 106), otherwise entirely valid: fresh unique name,
deadline in the future, existing task type and project. -/
def defaultPriorityTask : Task :=
  { id := 5, name := "fresh-task", description := "", deadline := 100,
    is_completed := false, priority := TASK_PRIORITY_DEFAULT,
    task_type_id := 1, project_id := 1, assignees := [1] }

/-- A project whose deadline (day 0) is already past on day 5. -/
def pastProject : Project := { projectA with id := 9, name := "late-proj", deadline := 0 }

/-- A task whose deadline (day 0) is already past on day 5. -/
def pastTask : Task := { taskA with id := 9, name := "late-task", deadline := 0 }

/-! ## Theorems -/

/-- C1, counterexample.  The claim says a non-member performing a GET on
a Team/Project/Task detail route receives the generic forbidden
response.  In the store `sampleDb`, employee 2 is not a member of team
1 (which transitively owns project 1 and task 1), yet all three detail
views hand employee 2 the full detail pages, never the forbidden
response. -/
theorem C1_counterexample :
    members_guard teamA.members (some 2) = false
    ∧ team_details_page_view sampleDb (some 2) 1 = Response.team_page teamA
    ∧ project_details_page_view sampleDb (some 2) 1 = Response.project_page projectA
    ∧ task_details_page_view sampleDb (some 2) 1 HttpMethod.get ""
        = (Response.task_page taskA, sampleDb)
    ∧ team_details_page_view sampleDb (some 2) 1 ≠ Response.forbidden := by
  decide

/-- C1, amended.  The membership check guards the member-management
(and update/delete) routes: a non-member gets the generic forbidden
response there.  But the Team/Project/Task detail views run no
membership check at all: EVERY authenticated user is shown the detail
page of any existing resource. -/
theorem detail_views_no_membership_check (db : Database) (uid pk : Int) :
    (∀ t, findTeam db pk = some t →
        team_details_page_view db (some uid) pk = Response.team_page t)
    ∧ (∀ p, findProject db pk = some p →
        project_details_page_view db (some uid) pk = Response.project_page p)
    ∧ (∀ k, findTask db pk = some k →
        task_details_page_view db (some uid) pk HttpMethod.get ""
          = (Response.task_page k, db))
    ∧ (∀ t, findTeam db pk = some t → t.members.contains uid = false →
        (∀ e, AddNewMemberToTeam_view db (some uid) pk e = (Response.forbidden, db))
        ∧ (∀ m, DeleteMemberFromTeam_post db (some uid) pk m
            = (Response.forbidden, db))) := by
  refine ⟨?_, ?_, ?_, ?_⟩
  · intro t ht
    simp [team_details_page_view, ht]
  · intro p hp
    simp [project_details_page_view, hp]
  · intro k hk
    simp [task_details_page_view, hk]
  · intro t ht hg
    simp at hg
    constructor
    · intro e
      simp [AddNewMemberToTeam_view, ht, members_guard, hg]
    · intro m
      simp [DeleteMemberFromTeam_post, ht, members_guard, hg]

/-- C1, witness: the amended theorem applied in `sampleDb` to employee
2, a non-member of team 1. -/
theorem detail_views_no_membership_check_witness :
    team_details_page_view sampleDb (some 2) 1 = Response.team_page teamA
    ∧ project_details_page_view sampleDb (some 2) 1 = Response.project_page projectA
    ∧ task_details_page_view sampleDb (some 2) 1 HttpMethod.get ""
        = (Response.task_page taskA, sampleDb)
    ∧ AddNewMemberToTeam_view sampleDb (some 2) 1 2 = (Response.forbidden, sampleDb)
    ∧ DeleteMemberFromTeam_post sampleDb (some 2) 1 1 = (Response.forbidden, sampleDb) := by
  obtain ⟨h1, h2, h3, h4⟩ := detail_views_no_membership_check sampleDb 2 1
  exact ⟨h1 teamA rfl, h2 projectA rfl, h3 taskA rfl,
    (h4 teamA rfl (by decide)).1 2, (h4 teamA rfl (by decide)).2 1⟩

/-- C2, counterexample.  The claim says a deletion request from an
employee who is not a member of the team owning the comment's task's
project does not remove the comment.  In `sampleDb`, employee 2 is not
a member of team 1, which owns project 1, which owns task 1, which owns
comment 1 — and employee 2's deletion request removes the comment. -/
theorem C2_counterexample :
    findComment sampleDb 1 = some commentA
    ∧ findTask sampleDb commentA.task_id = some taskA
    ∧ findProject sampleDb taskA.project_id = some projectA
    ∧ findTeam sampleDb projectA.team_id = some teamA
    ∧ teamA.members.contains 2 = false
    ∧ DeleteCommentView_post sampleDb (some 2) 1
        = (Response.redirect "tracker:task-details",
           { sampleDb with comments := [] }) := by
  decide

/-- C2, amended.  `DeleteCommentView` checks only that the requester is
authenticated: ANY authenticated employee's deletion request on an
existing comment removes it, with no membership condition. -/
theorem comment_delete_only_checks_login (db : Database) (uid pk : Int)
    (c : Comment) (hc : findComment db pk = some c) :
    DeleteCommentView_post db (some uid) pk
      = (Response.redirect "tracker:task-details",
         { db with comments := db.comments.filter (fun x => ¬ x.id == pk) }) := by
  simp [DeleteCommentView_post, hc]

/-- C2, witness: employee 2 (a non-member) deletes comment 1. -/
theorem comment_delete_only_checks_login_witness :
    DeleteCommentView_post sampleDb (some 2) 1
      = (Response.redirect "tracker:task-details",
         { sampleDb with comments := [] }) :=
  (comment_delete_only_checks_login sampleDb 2 1 commentA rfl).trans (by decide)

/-- C8.  Every mutation route turns an unauthenticated request away
without performing the mutation: the database it returns is the input
database, and the response is a rejection.  The function-based create
views, the comment-create POST and `DeleteCommentView` answer with the
login redirect of `@login_required` / `LoginRequiredMixin`.  The
class-based member/update/delete views run their overridden `dispatch`
first, so the anonymous requester (whose id `None` matches no stored
member) is turned away by the 404 lookup or the membership guard
(`server_error` can only arise from a dangling foreign key).  In
particular the project-delete route never reaches its deletion for an
unauthenticated identity, even though `DeleteProjectView` carries no
`LoginRequiredMixin`. -/
theorem mutation_routes_reject_anonymous (db : Database)
    (pk e tc tt pc dl td : Int) (n d s c : String) (ic : Bool) :
    create_team_form_view db none n d s = (Response.login_redirect, db)
    ∧ create_project_form_view db none n d dl ic tc td = (Response.login_redirect, db)
    ∧ create_task_form_view db none n d dl ic s tt c pc td = (Response.login_redirect, db)
    ∧ CreateTypeView_post db none n = (Response.login_redirect, db)
    ∧ task_details_page_view db none pk HttpMethod.post c = (Response.login_redirect, db)
    ∧ DeleteCommentView_post db none pk = (Response.login_redirect, db)
    ∧ ((AddNewMemberToTeam_view db none pk e).2 = db
       ∧ ((AddNewMemberToTeam_view db none pk e).1 = Response.not_found
          ∨ (AddNewMemberToTeam_view db none pk e).1 = Response.forbidden))
    ∧ ((DeleteMemberFromTeam_post db none pk e).2 = db
       ∧ ((DeleteMemberFromTeam_post db none pk e).1 = Response.not_found
          ∨ (DeleteMemberFromTeam_post db none pk e).1 = Response.forbidden))
    ∧ ((UpdateTeamView_post db none pk n d s).2 = db
       ∧ ((UpdateTeamView_post db none pk n d s).1 = Response.not_found
          ∨ (UpdateTeamView_post db none pk n d s).1 = Response.forbidden))
    ∧ ((DeleteTeamView_post db none pk).2 = db
       ∧ ((DeleteTeamView_post db none pk).1 = Response.not_found
          ∨ (DeleteTeamView_post db none pk).1 = Response.forbidden))
    ∧ ((UpdateProjectView_post db none pk n d dl ic tc td).2 = db
       ∧ ((UpdateProjectView_post db none pk n d dl ic tc td).1 = Response.not_found
          ∨ (UpdateProjectView_post db none pk n d dl ic tc td).1 = Response.forbidden
          ∨ (UpdateProjectView_post db none pk n d dl ic tc td).1 = Response.server_error))
    ∧ ((DeleteProjectView_post db none pk).2 = db
       ∧ ((DeleteProjectView_post db none pk).1 = Response.not_found
          ∨ (DeleteProjectView_post db none pk).1 = Response.forbidden
          ∨ (DeleteProjectView_post db none pk).1 = Response.server_error))
    ∧ ((UpdateTaskView_post db none pk n d dl ic s tt c pc td).2 = db
       ∧ ((UpdateTaskView_post db none pk n d dl ic s tt c pc td).1 = Response.not_found
          ∨ (UpdateTaskView_post db none pk n d dl ic s tt c pc td).1 = Response.forbidden
          ∨ (UpdateTaskView_post db none pk n d dl ic s tt c pc td).1 = Response.server_error))
    ∧ ((DeleteTaskView_post db none pk).2 = db
       ∧ ((DeleteTaskView_post db none pk).1 = Response.not_found
          ∨ (DeleteTaskView_post db none pk).1 = Response.forbidden
          ∨ (DeleteTaskView_post db none pk).1 = Response.server_error)) := by
  refine ⟨rfl, rfl, rfl, rfl, rfl, rfl, ?_, ?_, ?_, ?_, ?_, ?_, ?_, ?_⟩
  · cases hf : findTeam db pk <;> simp [AddNewMemberToTeam_view, hf, members_guard]
  · cases hf : findTeam db pk <;> simp [DeleteMemberFromTeam_post, hf, members_guard]
  · cases hf : findTeam db pk <;> simp [UpdateTeamView_post, hf, members_guard]
  · cases hf : findTeam db pk <;> simp [DeleteTeamView_post, hf, members_guard]
  · cases hf : findProject db pk
    · simp [UpdateProjectView_post, hf]
    · rename_i p
      cases hg : findTeam db p.team_id <;>
        simp [UpdateProjectView_post, hf, hg, members_guard]
  · cases hf : findProject db pk
    · simp [DeleteProjectView_post, hf]
    · rename_i p
      cases hg : findTeam db p.team_id <;>
        simp [DeleteProjectView_post, hf, hg, members_guard]
  · cases hf : findTask db pk
    · simp [UpdateTaskView_post, hf]
    · rename_i t
      cases hp : findProject db t.project_id
      · simp [UpdateTaskView_post, hf, hp]
      · rename_i p
        cases hg : findTeam db p.team_id <;>
          simp [UpdateTaskView_post, hf, hp, hg, members_guard]
  · cases hf : findTask db pk
    · simp [DeleteTaskView_post, hf]
    · rename_i t
      cases hp : findProject db t.project_id
      · simp [DeleteTaskView_post, hf, hp]
      · rename_i p
        cases hg : findTeam db p.team_id <;>
          simp [DeleteTaskView_post, hf, hp, hg, members_guard]

/-- C9.  The default value `"U"` of `Task.priority` is not one of the
declared choices, and because `Task.save` runs `full_clean`, a task
saved with the default priority is REJECTED with an invalid-choice
error on `priority` — it is not stored at all (so no task with an
out-of-enumeration priority is ever persisted, but neither is the
claimed default-priority save). -/
theorem default_priority_save_rejected :
    PRIORITY_CHOICES.contains TASK_PRIORITY_DEFAULT = false
    ∧ task_save sampleDb defaultPriorityTask 0
        = .error [("priority", "Value is not a valid choice.")]
    ∧ (0 : Int) < defaultPriorityTask.deadline
    ∧ task_clean_errors defaultPriorityTask 0 = []
    ∧ task_unique_errors sampleDb defaultPriorityTask = [] :=
  ⟨rfl, rfl, by decide, rfl, rfl⟩

/-- C6.  For every Project and Task save: a deadline on or before today
makes `full_clean` report the deadline error and `save` reject the
write (nothing is persisted — `save` returns no database); a deadline
strictly after today passes the deadline validation (`Model.clean`
reports no error). -/
theorem deadline_validation (db : Database) (p : Project) (t : Task) (today : Int) :
    (p.deadline ≤ today →
        project_save db p today = .error (project_full_clean db p today)
        ∧ ("deadline", "The deadline cannot be in the past.")
            ∈ project_full_clean db p today)
    ∧ (today < p.deadline → project_clean_errors p today = [])
    ∧ (t.deadline ≤ today →
        task_save db t today = .error (task_full_clean db t today)
        ∧ ("deadline", "The deadline cannot be in the past.")
            ∈ task_full_clean db t today)
    ∧ (today < t.deadline → task_clean_errors t today = []) := by
  refine ⟨?_, ?_, ?_, ?_⟩
  · intro h
    have hmem : ("deadline", "The deadline cannot be in the past.")
        ∈ project_full_clean db p today := by
      simp [project_full_clean, project_clean_errors, h]
    exact ⟨by simp [project_save, List.ne_nil_of_mem hmem], hmem⟩
  · intro h
    simp [project_clean_errors, show ¬ p.deadline ≤ today by omega]
  · intro h
    have hmem : ("deadline", "The deadline cannot be in the past.")
        ∈ task_full_clean db t today := by
      simp [task_full_clean, task_clean_errors, h]
    exact ⟨by simp [task_save, List.ne_nil_of_mem hmem], hmem⟩
  · intro h
    simp [task_clean_errors, show ¬ t.deadline ≤ today by omega]

/-- C6, witness: on day 5, saving `pastProject`/`pastTask` (deadline
day 0) is rejected with the deadline error, while `projectA`/`taskA`
(deadline day 100) pass the deadline validation. -/
theorem deadline_validation_witness :
    (project_save sampleDb pastProject 5 = .error (project_full_clean sampleDb pastProject 5)
     ∧ ("deadline", "The deadline cannot be in the past.")
         ∈ project_full_clean sampleDb pastProject 5)
    ∧ project_clean_errors projectA 5 = []
    ∧ (task_save sampleDb pastTask 5 = .error (task_full_clean sampleDb pastTask 5)
       ∧ ("deadline", "The deadline cannot be in the past.")
           ∈ task_full_clean sampleDb pastTask 5)
    ∧ task_clean_errors taskA 5 = [] :=
  ⟨(deadline_validation sampleDb pastProject pastTask 5).1 (by decide),
   (deadline_validation sampleDb projectA taskA 5).2.1 (by decide),
   (deadline_validation sampleDb pastProject pastTask 5).2.2.1 (by decide),
   (deadline_validation sampleDb projectA taskA 5).2.2.2 (by decide)⟩

/-- Mapping a team-list transformation that preserves ids commutes with
the `findTeam` lookup. -/
theorem findTeam_map (db : Database) (pk : Int) (f : Team → Team)
    (hf : ∀ t, (f t).id = t.id) :
    findTeam { db with teams := db.teams.map f } pk = (findTeam db pk).map f := by
  unfold findTeam
  rw [List.find?_map]
  have : ((fun t : Team => t.id == pk) ∘ f) = (fun t : Team => t.id == pk) := by
    funext t
    simp [hf t]
  rw [this]

/-- C7.  On the member-delete path, for a requester who is a member of
the team (and a stored employee): targeting themself yields the
explicit error page "You cannot delete yourself from the team." —
which is not the generic forbidden response — with the database
untouched; targeting any other stored employee succeeds with a
redirect, and afterwards the team's member set no longer contains that
employee. -/
theorem member_delete_self_vs_other (db : Database) (team : Team)
    (uid m team_pk : Int)
    (ht : findTeam db team_pk = some team)
    (hmem : team.members.contains uid = true)
    (huid : db.employees.contains uid = true)
    (hm : db.employees.contains m = true) :
    (DeleteMemberFromTeam_post db (some uid) team_pk uid
        = (Response.form_with_error "You cannot delete yourself from the team.", db)
      ∧ Response.form_with_error "You cannot delete yourself from the team."
          ≠ Response.forbidden)
    ∧ (m ≠ uid →
        DeleteMemberFromTeam_post db (some uid) team_pk m
          = (Response.redirect "tracker:team-details",
             { db with teams := db.teams.map (fun t =>
                 if t.id == team_pk then
                   { t with members := t.members.filter (fun x => ¬ x == m) }
                 else t) })
        ∧ ∀ t2, findTeam (DeleteMemberFromTeam_post db (some uid) team_pk m).2 team_pk
              = some t2 → t2.members.contains m = false) := by
  have ht' := ht
  unfold findTeam at ht'
  have hidt : team.id = team_pk := by
    have h0 := List.find?_some ht'
    simpa using h0
  simp at hmem huid hm
  constructor
  · constructor
    · simp [DeleteMemberFromTeam_post, ht, members_guard, hmem, huid]
    · simp
  · intro hne
    have heq : DeleteMemberFromTeam_post db (some uid) team_pk m
        = (Response.redirect "tracker:team-details",
           { db with teams := db.teams.map (fun t =>
               if t.id == team_pk then
                 { t with members := t.members.filter (fun x => ¬ x == m) }
               else t) }) := by
      simp [DeleteMemberFromTeam_post, ht, members_guard, hmem, hm, hne]
    refine ⟨heq, ?_⟩
    intro t2 ht2
    rw [heq] at ht2
    rw [findTeam_map db team_pk _ (fun t => by
      by_cases h : t.id == team_pk <;> simp [h])] at ht2
    rw [ht] at ht2
    have ht3 : some ((fun t : Team =>
        if t.id == team_pk then
          { t with members := t.members.filter (fun x => ¬ x == m) }
        else t) team) = some t2 := ht2
    injection ht3 with h
    rw [← h]
    simp [hidt]

/-- C7, witness: in team 2 (members 1 and 2), member 1's request to
remove themself is rejected with the explicit message and nothing
changes; member 1's request to remove member 2 succeeds and the team's
member set no longer contains employee 2. -/
theorem member_delete_self_vs_other_witness :
    DeleteMemberFromTeam_post sampleDb (some 1) 2 1
      = (Response.form_with_error "You cannot delete yourself from the team.", sampleDb)
    ∧ ({ teamB with members := [1] } : Team).members.contains 2 = false
    ∧ DeleteMemberFromTeam_post sampleDb (some 1) 2 2
      = (Response.redirect "tracker:team-details",
         { sampleDb with teams := [teamA, { teamB with members := [1] }] }) := by
  have h := member_delete_self_vs_other sampleDb teamB 1 2 2 (by decide)
    (by decide) (by decide) (by decide)
  refine ⟨h.1.1, ?_, ((h.2 (by decide)).1).trans (by decide)⟩
  exact (h.2 (by decide)).2 { teamB with members := [1] } (by
    rw [((h.2 (by decide)).1)]
    decide)

/-- C3.  For every Team/Project/Task and authenticated requester, the
update and delete views return the generic forbidden response and
leave the database unchanged when the requester is not a member of the
owning team (walking the project→team and task→project→team chains),
and proceed when the requester is a member: the delete views perform
the deletion (with its cascade), the update views continue into their
form-processing stage. -/
theorem update_delete_guard (db : Database) (uid pk : Int) :
    (∀ t, findTeam db pk = some t → t.members.contains uid = false →
        (∀ n d s, UpdateTeamView_post db (some uid) pk n d s = (Response.forbidden, db))
        ∧ DeleteTeamView_post db (some uid) pk = (Response.forbidden, db))
    ∧ (∀ t, findTeam db pk = some t → t.members.contains uid = true →
        (∀ n d s, UpdateTeamView_post db (some uid) pk n d s
            = UpdateTeamView_form_branch db pk n d s)
        ∧ DeleteTeamView_post db (some uid) pk
            = (Response.redirect "tracker:teams", deleteTeamCascade db pk))
    ∧ (∀ p team, findProject db pk = some p → findTeam db p.team_id = some team →
        team.members.contains uid = false →
        (∀ n d dl ic tc td, UpdateProjectView_post db (some uid) pk n d dl ic tc td
            = (Response.forbidden, db))
        ∧ DeleteProjectView_post db (some uid) pk = (Response.forbidden, db))
    ∧ (∀ p team, findProject db pk = some p → findTeam db p.team_id = some team →
        team.members.contains uid = true →
        (∀ n d dl ic tc td, UpdateProjectView_post db (some uid) pk n d dl ic tc td
            = UpdateProjectView_form_branch db uid pk n d dl ic tc td)
        ∧ DeleteProjectView_post db (some uid) pk
            = (Response.redirect "tracker:projects", deleteProjectCascade db pk))
    ∧ (∀ k p team, findTask db pk = some k → findProject db k.project_id = some p →
        findTeam db p.team_id = some team → team.members.contains uid = false →
        (∀ n d dl ic pr tt aids pc td,
            UpdateTaskView_post db (some uid) pk n d dl ic pr tt aids pc td
              = (Response.forbidden, db))
        ∧ DeleteTaskView_post db (some uid) pk = (Response.forbidden, db))
    ∧ (∀ k p team, findTask db pk = some k → findProject db k.project_id = some p →
        findTeam db p.team_id = some team → team.members.contains uid = true →
        (∀ n d dl ic pr tt aids pc td,
            UpdateTaskView_post db (some uid) pk n d dl ic pr tt aids pc td
              = UpdateTaskView_form_branch db uid pk n d dl ic pr tt aids pc td)
        ∧ DeleteTaskView_post db (some uid) pk
            = (Response.redirect "tracker:tasks", deleteTaskCascade db pk)) := by
  refine ⟨?_, ?_, ?_, ?_, ?_, ?_⟩
  · intro t ht hg
    simp at hg
    exact ⟨fun n d s => by simp [UpdateTeamView_post, ht, members_guard, hg],
           by simp [DeleteTeamView_post, ht, members_guard, hg]⟩
  · intro t ht hg
    simp at hg
    exact ⟨fun n d s => by simp [UpdateTeamView_post, ht, members_guard, hg],
           by simp [DeleteTeamView_post, ht, members_guard, hg]⟩
  · intro p team hp ht hg
    simp at hg
    exact ⟨fun n d dl ic tc td => by
             simp [UpdateProjectView_post, hp, ht, members_guard, hg],
           by simp [DeleteProjectView_post, hp, ht, members_guard, hg]⟩
  · intro p team hp ht hg
    simp at hg
    exact ⟨fun n d dl ic tc td => by
             simp [UpdateProjectView_post, hp, ht, members_guard, hg],
           by simp [DeleteProjectView_post, hp, ht, members_guard, hg]⟩
  · intro k p team hk hp ht hg
    simp at hg
    exact ⟨fun n d dl ic pr tt aids pc td => by
             simp [UpdateTaskView_post, hk, hp, ht, members_guard, hg],
           by simp [DeleteTaskView_post, hk, hp, ht, members_guard, hg]⟩
  · intro k p team hk hp ht hg
    simp at hg
    exact ⟨fun n d dl ic pr tt aids pc td => by
             simp [UpdateTaskView_post, hk, hp, ht, members_guard, hg],
           by simp [DeleteTaskView_post, hk, hp, ht, members_guard, hg]⟩

/-- C3, witness: employee 2 (not a member of team 1, which owns project
1 and task 1) is turned away with the forbidden page and the store
unchanged by all six update/delete views, while employee 1 (a member)
reaches the form stage on the update views and the deletion (with
cascade) on the delete views. -/
theorem update_delete_guard_witness :
    UpdateTeamView_post sampleDb (some 2) 1 "x" "y" "1" = (Response.forbidden, sampleDb)
    ∧ DeleteTeamView_post sampleDb (some 2) 1 = (Response.forbidden, sampleDb)
    ∧ UpdateProjectView_post sampleDb (some 2) 1 "x" "y" 200 false 1 5
        = (Response.forbidden, sampleDb)
    ∧ DeleteProjectView_post sampleDb (some 2) 1 = (Response.forbidden, sampleDb)
    ∧ UpdateTaskView_post sampleDb (some 2) 1 "x" "y" 200 false "low" 1 "1" 1 5
        = (Response.forbidden, sampleDb)
    ∧ DeleteTaskView_post sampleDb (some 2) 1 = (Response.forbidden, sampleDb)
    ∧ UpdateTeamView_post sampleDb (some 1) 1 "gamma" "" "1"
        = UpdateTeamView_form_branch sampleDb 1 "gamma" "" "1"
    ∧ DeleteTeamView_post sampleDb (some 1) 1
        = (Response.redirect "tracker:teams", deleteTeamCascade sampleDb 1)
    ∧ UpdateProjectView_post sampleDb (some 1) 1 "proj" "" 200 false 1 5
        = UpdateProjectView_form_branch sampleDb 1 1 "proj" "" 200 false 1 5
    ∧ DeleteProjectView_post sampleDb (some 1) 1
        = (Response.redirect "tracker:projects", deleteProjectCascade sampleDb 1)
    ∧ UpdateTaskView_post sampleDb (some 1) 1 "task" "" 200 false "low" 1 "1" 1 5
        = UpdateTaskView_form_branch sampleDb 1 1 "task" "" 200 false "low" 1 "1" 1 5
    ∧ DeleteTaskView_post sampleDb (some 1) 1
        = (Response.redirect "tracker:tasks", deleteTaskCascade sampleDb 1) := by
  have h2 := update_delete_guard sampleDb 2 1
  have h1 := update_delete_guard sampleDb 1 1
  refine ⟨(h2.1 teamA rfl (by decide)).1 "x" "y" "1",
          (h2.1 teamA rfl (by decide)).2,
          (h2.2.2.1 projectA teamA rfl rfl (by decide)).1 "x" "y" 200 false 1 5,
          (h2.2.2.1 projectA teamA rfl rfl (by decide)).2,
          (h2.2.2.2.2.1 taskA projectA teamA rfl rfl rfl (by decide)).1
            "x" "y" 200 false "low" 1 "1" 1 5,
          (h2.2.2.2.2.1 taskA projectA teamA rfl rfl rfl (by decide)).2,
          (h1.2.1 teamA rfl (by decide)).1 "gamma" "" "1",
          (h1.2.1 teamA rfl (by decide)).2,
          (h1.2.2.2.1 projectA teamA rfl rfl (by decide)).1 "proj" "" 200 false 1 5,
          (h1.2.2.2.1 projectA teamA rfl rfl (by decide)).2,
          (h1.2.2.2.2.2 taskA projectA teamA rfl rfl rfl (by decide)).1
            "task" "" 200 false "low" 1 "1" 1 5,
          (h1.2.2.2.2.2 taskA projectA teamA rfl rfl rfl (by decide)).2⟩

/-- The count comparison at the heart of `clean_ids_field`: with a
duplicate-free table (primary keys are unique), the number of stored
rows whose id appears in `ids` equals the number of requested ids
exactly when the requested ids are pairwise distinct and every one of
them is stored. -/
theorem filter_contains_length_eq_iff (existing ids : List Int)
    (h : existing.Nodup) :
    (existing.filter (fun e => ids.contains e)).length = ids.length
      ↔ ids.Nodup ∧ ∀ i ∈ ids, i ∈ existing := by
  have hFnd : (existing.filter (fun e => ids.contains e)).Nodup := h.filter _
  have step1 : (existing.filter (fun e => ids.contains e)).toFinset
      = existing.toFinset ∩ ids.toFinset := by
    ext x
    simp [List.mem_filter]
  have step2 : (existing.filter (fun e => ids.contains e)).length
      = (existing.toFinset ∩ ids.toFinset).card := by
    rw [← step1, List.toFinset_card_of_nodup hFnd]
  constructor
  · intro hlen
    have hcard : (existing.toFinset ∩ ids.toFinset).card = ids.length := by
      rw [← step2, hlen]
    have h1 : (existing.toFinset ∩ ids.toFinset).card ≤ ids.toFinset.card :=
      Finset.card_le_card Finset.inter_subset_right
    have h2 : ids.toFinset.card ≤ ids.length := ids.toFinset_card_le
    have h3 : ids.toFinset.card = ids.length := by omega
    have h4 : ids.dedup.length = ids.length := by
      rw [← List.card_toFinset]
      exact h3
    have h5 : ids.dedup = ids := (List.dedup_sublist ids).eq_of_length h4
    have hnd : ids.Nodup := h5 ▸ List.nodup_dedup ids
    refine ⟨hnd, ?_⟩
    have h6 : existing.toFinset ∩ ids.toFinset = ids.toFinset :=
      Finset.eq_of_subset_of_card_le Finset.inter_subset_right (by omega)
    intro i hi
    have hi2 : i ∈ ids.toFinset := List.mem_toFinset.mpr hi
    rw [← h6] at hi2
    exact List.mem_toFinset.mp (Finset.mem_inter.mp hi2).1
  · rintro ⟨hnd, hsub⟩
    have hperm : List.Perm (existing.filter (fun e => ids.contains e)) ids := by
      rw [List.perm_ext_iff_of_nodup hFnd hnd]
      intro a
      simp only [List.mem_filter, List.contains_iff_exists_mem_beq]
      constructor
      · rintro ⟨_, b, hb, hab⟩
        have : a = b := by simpa using hab
        exact this ▸ hb
      · intro ha
        exact ⟨hsub a ha, a, ha, by simp⟩
    exact hperm.length_eq

/-- `parseAll` succeeds with the empty id list exactly on the empty
token list. -/
theorem parseAll_eq_nil_iff (l : List (List Char)) (ids : List Int)
    (h : parseAll l = some ids) : ids = [] ↔ l = [] := by
  cases l with
  | nil =>
      have h0 : parseAll [] = some ([] : List Int) := rfl
      rw [h0] at h
      injection h with h1
      simp [← h1]
  | cons t ts =>
      cases hpy : pyInt t <;> cases hrest : parseAll ts <;>
        rw [parseAll, hpy, hrest] at h
      · exact absurd h (by simp)
      · exact absurd h (by simp)
      · exact absurd h (by simp)
      · injection h with h1
        simp [← h1]

/-- Normal form of `clean_ids_field` once the tokens are known to parse
to `ids`: the empty check, then the `len(objects) != len(ids)` count
comparison, then success with the filtered table rows. -/
theorem clean_ids_field_eq_of_parse (existing : List Int) (fn s : String)
    (ids : List Int) (hp : parse_ids s = some ids) :
    clean_ids_field existing fn s =
      if ids = [] then .error (empty_ids_message fn)
      else if (existing.filter (fun e => ids.contains e)).length ≠ ids.length
        then .error (invalid_ids_message fn)
      else .ok (existing.filter (fun e => ids.contains e)) := by
  by_cases hs : s = ""
  · subst hs
    have h0 : parse_ids "" = some [] := rfl
    rw [h0] at hp
    injection hp with h1
    rw [← h1]
    rfl
  · have hm : parseAll (split_tokens s) = some ids := hp
    by_cases ht : split_tokens s = []
    · rw [ht] at hm
      have h0 : parseAll [] = some ([] : List Int) := rfl
      rw [h0] at hm
      injection hm with h1
      rw [← h1]
      simp [clean_ids_field, hs, ht]
    · have hne : ids ≠ [] := fun h0 => ht ((parseAll_eq_nil_iff _ _ hm).mp h0)
      rw [if_neg hne]
      unfold clean_ids_field
      rw [if_neg hs]
      simp only [ht, hm]
      simp

/-- When `clean_ids_field` succeeds, the returned rows are exactly the
stored entities whose id was requested, and (the count comparison
having passed on a duplicate-free table) membership in the result
coincides with membership in the parsed id list. -/
theorem clean_ids_field_ok_mem (existing : List Int) (fn s : String)
    (ids l : List Int) (hex : existing.Nodup) (hp : parse_ids s = some ids)
    (hl : clean_ids_field existing fn s = .ok l) :
    l = existing.filter (fun e => ids.contains e) ∧ ∀ x, x ∈ l ↔ x ∈ ids := by
  rw [clean_ids_field_eq_of_parse existing fn s ids hp] at hl
  by_cases h0 : ids = []
  · rw [if_pos h0] at hl
    exact absurd hl (by simp)
  · rw [if_neg h0] at hl
    by_cases hlen : (existing.filter (fun e => ids.contains e)).length = ids.length
    · rw [if_neg (by simpa using hlen)] at hl
      injection hl with h1
      obtain ⟨hnd, hsub⟩ := (filter_contains_length_eq_iff existing ids hex).mp hlen
      refine ⟨h1.symm, fun x => ?_⟩
      rw [← h1]
      simp only [List.mem_filter]
      constructor
      · intro hx
        have := hx.2
        simpa using this
      · intro hx
        exact ⟨hsub x hx, by simpa using hx⟩
    · rw [if_pos (by simpa using hlen)] at hl
      exact absurd hl (by simp)

/-- `clean_ids_field` succeeds exactly when the parsed id list is
non-empty, duplicate-free and entirely resolvable against the
(duplicate-free) table. -/
theorem clean_ids_field_ok_iff (existing : List Int) (fn s : String)
    (ids : List Int) (hex : existing.Nodup) (hp : parse_ids s = some ids) :
    clean_ids_field existing fn s
        = .ok (existing.filter (fun e => ids.contains e))
      ↔ ids ≠ [] ∧ ids.Nodup ∧ ∀ i ∈ ids, i ∈ existing := by
  rw [clean_ids_field_eq_of_parse existing fn s ids hp]
  constructor
  · intro hl
    by_cases h0 : ids = []
    · rw [if_pos h0] at hl
      exact absurd hl (by simp)
    · rw [if_neg h0] at hl
      by_cases hlen : (existing.filter (fun e => ids.contains e)).length = ids.length
      · exact ⟨h0, (filter_contains_length_eq_iff existing ids hex).mp hlen⟩
      · rw [if_pos (by simpa using hlen)] at hl
        exact absurd hl (by simp)
  · rintro ⟨h0, hnd, hsub⟩
    have hlen : (existing.filter (fun e => ids.contains e)).length = ids.length :=
      (filter_contains_length_eq_iff existing ids hex).mpr ⟨hnd, hsub⟩
    rw [if_neg h0, if_neg (by simpa using hlen)]

/-- C4, counterexample.  The claim says the count-comparison step
fails exactly when some parsed id does not resolve, and in particular
succeeds whenever every parsed id — including repeated ids — exists.
Input `"1,1"` against a store containing id 1 parses to `[1, 1]`,
every parsed id exists, yet the resolver fails the count comparison
(`filter(pk__in=[1,1])` returns the one stored row, and 1 ≠ 2). -/
theorem C4_counterexample :
    parse_ids "1,1" = some [1, 1]
    ∧ (1 : Int) ∈ ([1] : List Int)
    ∧ clean_ids_field [1] "member_ids" "1,1"
        = .error "One or more member ids IDs are invalid. Please check the IDs." :=
  ⟨rfl, by decide, rfl⟩

/-- C4, amended.  For input whose tokens all parse as integers, the
count-comparison step fails exactly when some parsed id does not
resolve to a stored entity OR the parsed list repeats an id: the
resolver succeeds iff the parsed ids are non-empty, pairwise distinct
and all stored (the table being duplicate-free on its primary key) —
and then it returns exactly the stored entities with those ids. -/
theorem count_comparison_characterization (existing : List Int) (fn s : String)
    (ids : List Int) (hex : existing.Nodup) (hp : parse_ids s = some ids) :
    (clean_ids_field existing fn s
        = .ok (existing.filter (fun e => ids.contains e))
      ↔ ids ≠ [] ∧ ids.Nodup ∧ ∀ i ∈ ids, i ∈ existing)
    ∧ (∀ l, clean_ids_field existing fn s = .ok l → ∀ x, x ∈ l ↔ x ∈ ids) :=
  ⟨clean_ids_field_ok_iff existing fn s ids hex hp,
   fun l hl => (clean_ids_field_ok_mem existing fn s ids l hex hp hl).2⟩

/-- C4, witness: against the stored ids `[1, 2]`, the input `"2,1"`
resolves successfully to exactly the entities 1 and 2. -/
theorem count_comparison_characterization_witness :
    clean_ids_field [1, 2] "member_ids" "2,1" = .ok [1, 2]
    ∧ ((1 : Int) ∈ ([1, 2] : List Int) ↔ (1 : Int) ∈ ([2, 1] : List Int)) :=
  ⟨rfl, (count_comparison_characterization [1, 2] "member_ids" "2,1" [2, 1]
      (by decide) rfl).2 [1, 2] rfl 1⟩

/-- A list without commas is split into a single piece. -/
theorem splitCommaAux_no_comma (l : List Char) (hl : ∀ c ∈ l, c ≠ ',') :
    ∀ acc, splitCommaAux l acc = [acc.reverse ++ l] := by
  induction l with
  | nil => intro acc; simp [splitCommaAux]
  | cons c rest ih =>
      intro acc
      rw [splitCommaAux, if_neg (hl c (by simp))]
      rw [ih (fun x hx => hl x (by simp [hx]))]
      simp

/-- An all-whitespace token strips to nothing. -/
theorem pyStrip_all_whitespace (l : List Char)
    (hl : ∀ c ∈ l, c.isWhitespace) : pyStrip l = [] := by
  unfold pyStrip
  rw [List.dropWhile_eq_nil_iff.mpr hl]
  simp

/-- Whitespace-only input yields no tokens at all. -/
theorem split_tokens_all_whitespace (s : String)
    (h : ∀ c ∈ s.data, c.isWhitespace) : split_tokens s = [] := by
  unfold split_tokens
  have hnc : ∀ c ∈ s.data, c ≠ ',' := by
    intro c hc hcomma
    have := h c hc
    rw [hcomma] at this
    exact absurd this (by decide)
  rw [splitCommaAux_no_comma s.data hnc []]
  simp [pyStrip_all_whitespace s.data h]

/-- C5.  The ID-list resolver: rejects the empty string; rejects
whitespace-only input; rejects (with the "valid integers" message) any
input containing a token that does not parse as an integer — no
partial success; rejects any input containing a parsed id with no
stored entity; and for a non-empty duplicate-free list of ids that all
exist it succeeds with exactly the stored entities carrying those ids
— the very list the calling forms pass wholesale to
`members.set` / `assignees.set`. -/
theorem clean_ids_field_spec (existing : List Int) (fn s : String)
    (ids : List Int) :
    clean_ids_field existing fn "" = .error (empty_ids_message fn)
    ∧ ((∀ c ∈ s.data, c.isWhitespace) →
        clean_ids_field existing fn s = .error (empty_ids_message fn))
    ∧ (parse_ids s = none →
        clean_ids_field existing fn s = .error "All IDs must be valid integers.")
    ∧ (existing.Nodup → parse_ids s = some ids →
        (∃ i ∈ ids, i ∉ existing) →
        clean_ids_field existing fn s = .error (invalid_ids_message fn))
    ∧ (existing.Nodup → parse_ids s = some ids → ids ≠ [] → ids.Nodup →
        (∀ i ∈ ids, i ∈ existing) →
        clean_ids_field existing fn s
            = .ok (existing.filter (fun e => ids.contains e))
        ∧ ∀ x, x ∈ existing.filter (fun e => ids.contains e) ↔ x ∈ ids) := by
  refine ⟨rfl, ?_, ?_, ?_, ?_⟩
  · intro hw
    by_cases hs : s = ""
    · rw [hs]; rfl
    · unfold clean_ids_field
      rw [if_neg hs]
      simp [split_tokens_all_whitespace s hw]
  · intro hp
    by_cases hs : s = ""
    · rw [hs] at hp
      exact absurd hp (by simp [parse_ids, split_tokens, splitCommaAux, pyStrip, parseAll])
    · have hm : parseAll (split_tokens s) = none := hp
      by_cases ht : split_tokens s = []
      · rw [ht] at hm
        exact absurd hm (by simp [parseAll])
      · unfold clean_ids_field
        rw [if_neg hs]
        simp only [ht, hm]
        simp
  · intro hex hp ⟨i, hi, hni⟩
    rw [clean_ids_field_eq_of_parse existing fn s ids hp]
    have hne : ids ≠ [] := List.ne_nil_of_mem hi
    rw [if_neg hne]
    have hlen : (existing.filter (fun e => ids.contains e)).length ≠ ids.length := by
      intro hlen
      exact hni (((filter_contains_length_eq_iff existing ids hex).mp hlen).2 i hi)
    rw [if_pos (by simpa using hlen)]
  · intro hex hp hne hnd hsub
    refine ⟨(clean_ids_field_ok_iff existing fn s ids hex hp).mpr ⟨hne, hnd, hsub⟩, ?_⟩
    exact (clean_ids_field_ok_mem existing fn s ids _ hex hp
      ((clean_ids_field_ok_iff existing fn s ids hex hp).mpr ⟨hne, hnd, hsub⟩)).2

/-- C5, witness: against the stored ids `[1, 2]`: `""` and `"   "` are
rejected as empty, `"1,2,x"` is rejected on the non-integer token,
`"1,999999"` is rejected on the unresolved id, and `"1,2"` resolves to
exactly the two stored entities. -/
theorem clean_ids_field_spec_witness :
    clean_ids_field [1, 2] "member_ids" "" = .error (empty_ids_message "member_ids")
    ∧ clean_ids_field [1, 2] "member_ids" "   " = .error (empty_ids_message "member_ids")
    ∧ clean_ids_field [1, 2] "member_ids" "1,2,x"
        = .error "All IDs must be valid integers."
    ∧ clean_ids_field [1, 2] "member_ids" "1,999999"
        = .error (invalid_ids_message "member_ids")
    ∧ clean_ids_field [1, 2] "member_ids" "1,2" = .ok [1, 2]
    ∧ ((1 : Int) ∈ ([1, 2] : List Int) ↔ (1 : Int) ∈ ([1, 2] : List Int)) := by
  have h1 := clean_ids_field_spec [1, 2] "member_ids" "   " ([] : List Int)
  have h2 := clean_ids_field_spec [1, 2] "member_ids" "1,2,x" ([] : List Int)
  have h3 := clean_ids_field_spec [1, 2] "member_ids" "1,999999" [1, 999999]
  have h4 := clean_ids_field_spec [1, 2] "member_ids" "1,2" [1, 2]
  refine ⟨h1.1, h1.2.1 (by decide), h2.2.2.1 rfl,
          h3.2.2.2.1 (by decide) rfl ⟨999999, by decide, by decide⟩, ?_, ?_⟩
  · have := (h4.2.2.2.2 (by decide) rfl (by decide) (by decide) (by decide)).1
    exact this.trans rfl
  · exact (h4.2.2.2.2 (by decide) rfl (by decide) (by decide) (by decide)).2 1

/-- C10.  After a team create or team update succeeds, the team's
member set is exactly the employee list resolved from `member_ids` —
membership coincides with occurrence in the parsed input — with no
requirement that the requester be included: on create the requester is
a member only if their id appears in the input, and a member updating
the team with an input omitting their own id is removed (the
self-removal block exists only on the member-delete path). -/
theorem team_members_set_wholesale (db : Database) (uid pk : Int)
    (n d s : String) (ids l : List Int) (team : Team)
    (hemp : db.employees.Nodup)
    (hp : parse_ids s = some ids)
    (hcl : clean_ids_field db.employees "member_ids" s = .ok l) :
    (create_team_form_clean db n s = .ok l →
      create_team_form_view db (some uid) n d s
        = (Response.redirect "tracker:teams",
           { db with teams := db.teams ++
               [{ id := freshId (db.teams.map (fun t => t.id)),
                  name := n, description := d, members := l }] })
      ∧ (∀ x, x ∈ l ↔ x ∈ ids)
      ∧ (uid ∈ l ↔ uid ∈ ids))
    ∧ (findTeam db pk = some team → team.members.contains uid = true →
        n ≠ "" → db.teams.any (fun t => t.name == n && ¬ t.id == pk) = false →
        UpdateTeamView_post db (some uid) pk n d s
          = (Response.redirect "tracker:team-details",
             { db with teams := db.teams.map (fun t =>
                 if t.id == pk then
                   { t with name := n, description := d, members := l }
                 else t) })
        ∧ (uid ∉ ids → ∀ t2,
            findTeam (UpdateTeamView_post db (some uid) pk n d s).2 pk = some t2 →
              t2.members.contains uid = false)) := by
  have hmeml := (clean_ids_field_ok_mem db.employees "member_ids" s ids l hemp hp hcl).2
  constructor
  · intro hform
    refine ⟨?_, hmeml, hmeml uid⟩
    simp [create_team_form_view, hform]
  · intro ht hmem hn huniq
    simp at hmem
    have heq : UpdateTeamView_post db (some uid) pk n d s
        = (Response.redirect "tracker:team-details",
           { db with teams := db.teams.map (fun t =>
               if t.id == pk then
                 { t with name := n, description := d, members := l }
               else t) }) := by
      rw [UpdateTeamView_post, ht]
      simp only [members_guard]
      rw [if_neg (by simpa using hmem)]
      rw [UpdateTeamView_form_branch]
      rw [if_neg hn]
      simp only [huniq]
      rw [hcl]
      simp
    refine ⟨heq, ?_⟩
    intro hout t2 ht2
    rw [heq] at ht2
    rw [findTeam_map db pk _ (fun t => by
      by_cases h : t.id == pk <;> simp [h])] at ht2
    rw [ht] at ht2
    have ht' := ht
    unfold findTeam at ht'
    have hidt : team.id = pk := by
      have h0 := List.find?_some ht'
      simpa using h0
    have ht3 : some ((fun t : Team =>
        if t.id == pk then { t with name := n, description := d, members := l }
        else t) team) = some t2 := ht2
    injection ht3 with h
    rw [← h]
    simp only [hidt]
    simp
    intro hmem2
    exact hout ((hmeml uid).mp hmem2)

/-- C10, witness: member 1 updates team 1 with `member_ids = "2"` and
is removed (their id is absent from the input); creating team "gamma"
with `member_ids = "2"` makes employee 2, not the requesting employee
1, the sole member. -/
theorem team_members_set_wholesale_witness :
    create_team_form_view sampleDb (some 1) "gamma" "" "2"
      = (Response.redirect "tracker:teams",
         { sampleDb with teams := [teamA, teamB,
             { id := 3, name := "gamma", description := "", members := [2] }] })
    ∧ ((1 : Int) ∈ ([2] : List Int) ↔ (1 : Int) ∈ ([2] : List Int))
    ∧ UpdateTeamView_post sampleDb (some 1) 1 "alpha" "" "2"
      = (Response.redirect "tracker:team-details",
         { sampleDb with teams := [{ teamA with members := [2] }, teamB] })
    ∧ ({ teamA with members := [2] } : Team).members.contains 1 = false := by
  have h := team_members_set_wholesale sampleDb 1 1 "gamma" "" "2" [2] [2] teamA
    (by decide) rfl rfl
  have h2 := team_members_set_wholesale sampleDb 1 1 "alpha" "" "2" [2] [2] teamA
    (by decide) rfl rfl
  have hupd := h2.2 rfl (by decide) (by decide) (by decide)
  refine ⟨((h.1 rfl).1).trans (by decide), (h.1 rfl).2.2, hupd.1.trans (by decide), ?_⟩
  exact hupd.2 (by decide) { teamA with members := [2] } (by
    rw [hupd.1]
    decide)

end Tracker
